import Mathlib

/-!
Verification of the SortingNetworks repository (sorts.cpp, main.cpp).

The development embeds the two vectorized networks (`simdsort4` on 4 signed
32-bit lanes, `simdsort6` on 6 signed 8-bit lanes of a 16-byte register), the
scalar reference network `sort6`, and the correctness/timing harness logic of
`main`, and proves the specification claims about them.

Machine arithmetic is modelled over `Int` with explicit wrapping (`wrap8`,
`wrap32`) at every point where the hardware wraps.  Compare-and-swap networks
are studied through `runNet`, a fold of two-element compare-and-swap steps
(`casF`) over a list of index pairs; sortedness of every concrete network is
derived from its behaviour on 0-1 inputs (the 0-1 principle, `runNet_monotone`).
-/

namespace SortingNetworks

/-- A compare-and-swap step on positions `i` and `j` of a tuple: position `i`
receives the smaller of the two values, position `j` the larger, all other
positions are untouched. -/
def casF {n : Nat} (i j : Fin n) (v : Fin n → Int) : Fin n → Int :=
  fun k => if k = i then min (v i) (v j) else if k = j then max (v i) (v j) else v k

/-- Run a sorting network, given as the list of its compare-and-swap index
pairs, over a tuple: the pairs are applied left to right. -/
def runNet {n : Nat} (net : List (Fin n × Fin n)) (v : Fin n → Int) : Fin n → Int :=
  net.foldl (fun w p => casF p.1 p.2 w) v

/-! ## The scalar reference network `sort6` (sorts.cpp, lines 143-162)

`sort6` sorts six 32-bit integers through twelve macro-expanded
compare-and-swap steps.  `__kmin(a,b)` is `a < b ? a : b`, `__kmax(a,b)` is
`a < b ? b : a`, and `__kswap(x,y)` stores the min at `v[x]` and the max at
`v[y]`.  The buffer `int v[6]` is modelled as the structure `Buf6`. -/

/-- The macro `__kmin(a, b) = (a < b ? a : b)` of sorts.cpp. -/
def kmin (a b : Int) : Int := if a < b then a else b

/-- The macro `__kmax(a, b) = (a < b ? b : a)` of sorts.cpp. -/
def kmax (a b : Int) : Int := if a < b then b else a

/-- The six-slot buffer `int v[6]` passed to `sort6`. -/
structure Buf6 where
  v0 : Int
  v1 : Int
  v2 : Int
  v3 : Int
  v4 : Int
  v5 : Int

/-- The buffer viewed as a tuple indexed by `Fin 6`. -/
def Buf6.toFun (b : Buf6) : Fin 6 → Int := fun i =>
  match i with
  | ⟨0, _⟩ => b.v0
  | ⟨1, _⟩ => b.v1
  | ⟨2, _⟩ => b.v2
  | ⟨3, _⟩ => b.v3
  | ⟨4, _⟩ => b.v4
  | ⟨5, _⟩ => b.v5

/-- `sort6` of sorts.cpp: the twelve `__kswap` steps
(1,2),(0,2),(0,1),(4,5),(3,5),(3,4),(0,3),(1,4),(2,5),(2,4),(1,3),(2,3)
applied in order. -/
def sort6 (v : Buf6) : Buf6 :=
  let s1 := { v with v1 := kmin v.v1 v.v2, v2 := kmax v.v1 v.v2 }
  let s2 := { s1 with v0 := kmin s1.v0 s1.v2, v2 := kmax s1.v0 s1.v2 }
  let s3 := { s2 with v0 := kmin s2.v0 s2.v1, v1 := kmax s2.v0 s2.v1 }
  let s4 := { s3 with v4 := kmin s3.v4 s3.v5, v5 := kmax s3.v4 s3.v5 }
  let s5 := { s4 with v3 := kmin s4.v3 s4.v5, v5 := kmax s4.v3 s4.v5 }
  let s6 := { s5 with v3 := kmin s5.v3 s5.v4, v4 := kmax s5.v3 s5.v4 }
  let s7 := { s6 with v0 := kmin s6.v0 s6.v3, v3 := kmax s6.v0 s6.v3 }
  let s8 := { s7 with v1 := kmin s7.v1 s7.v4, v4 := kmax s7.v1 s7.v4 }
  let s9 := { s8 with v2 := kmin s8.v2 s8.v5, v5 := kmax s8.v2 s8.v5 }
  let s10 := { s9 with v2 := kmin s9.v2 s9.v4, v4 := kmax s9.v2 s9.v4 }
  let s11 := { s10 with v1 := kmin s10.v1 s10.v3, v3 := kmax s10.v1 s10.v3 }
  { s11 with v2 := kmin s11.v2 s11.v3, v3 := kmax s11.v2 s11.v3 }

/-- The index-pair sequence of the twelve compare-and-swaps of `sort6`. -/
def sort6Net : List (Fin 6 × Fin 6) :=
  [(1, 2), (0, 2), (0, 1), (4, 5), (3, 5), (3, 4),
   (0, 3), (1, 4), (2, 5), (2, 4), (1, 3), (2, 3)]

/-! ## The vectorized 4-element network `simdsort4` (sorts.cpp, lines 193-216)

A 128-bit register of four signed 32-bit lanes is the structure `Vec4`.
Lane values are integers; every operation that can wrap on the hardware
(`_mm_add_epi32`, `_mm_slli_epi32`) wraps explicitly through `wrap32`. -/

/-- Two's-complement wrap of an integer to the signed 32-bit range. -/
def wrap32 (z : Int) : Int := (z + 2147483648) % 4294967296 - 2147483648

/-- A 128-bit register of four signed 32-bit lanes (lane 0 is the lowest). -/
structure Vec4 where
  e0 : Int
  e1 : Int
  e2 : Int
  e3 : Int

/-- Lane selection by a two-bit index, as used by `_mm_shuffle_epi32` and
`_mm_permutevar_ps` (both consume the index modulo 4; callers pass 0..3). -/
def Vec4.get (a : Vec4) (i : Nat) : Int :=
  match i with
  | 0 => a.e0
  | 1 => a.e1
  | 2 => a.e2
  | _ => a.e3

/-- The register viewed as a tuple indexed by `Fin 4`. -/
def Vec4.toFun (a : Vec4) : Fin 4 → Int := fun i =>
  match i with
  | ⟨0, _⟩ => a.e0
  | ⟨1, _⟩ => a.e1
  | ⟨2, _⟩ => a.e2
  | ⟨3, _⟩ => a.e3

/-- One lane of `_mm_cmpgt_epi32`/`_mm_cmpgt_epi8`: all-ones (-1) where the
first operand is strictly greater, else 0. -/
def cmpgtMask (b a : Int) : Int := if a < b then -1 else 0

/-- `_mm_shuffle_epi32(a, imm)`: lane `k` receives the lane selected by bits
`2k+1..2k` of the immediate. -/
def mm_shuffle_epi32 (a : Vec4) (imm : Nat) : Vec4 :=
  ⟨a.get (imm % 4), a.get (imm / 4 % 4), a.get (imm / 16 % 4), a.get (imm / 64 % 4)⟩

/-- `_mm_cmpgt_epi32(b, a)` lane-wise. -/
def mm_cmpgt_epi32 (b a : Vec4) : Vec4 :=
  ⟨cmpgtMask b.e0 a.e0, cmpgtMask b.e1 a.e1, cmpgtMask b.e2 a.e2, cmpgtMask b.e3 a.e3⟩

/-- `_mm_add_epi32` lane-wise, wrapping at 32 bits. -/
def mm_add_epi32 (a b : Vec4) : Vec4 :=
  ⟨wrap32 (a.e0 + b.e0), wrap32 (a.e1 + b.e1), wrap32 (a.e2 + b.e2), wrap32 (a.e3 + b.e3)⟩

/-- `_mm_slli_epi32` lane-wise, wrapping at 32 bits. -/
def mm_slli_epi32 (a : Vec4) (n : Nat) : Vec4 :=
  ⟨wrap32 (a.e0 * 2 ^ n), wrap32 (a.e1 * 2 ^ n), wrap32 (a.e2 * 2 ^ n), wrap32 (a.e3 * 2 ^ n)⟩

/-- `_mm_permutevar_ps(a, b)`: lane `k` receives the lane of `a` selected by
the low two bits (the value modulo 4) of integer lane `k` of `b`.  The float
casts in the source reinterpret bits only; lanes move unchanged. -/
def mm_permutevar_ps (a b : Vec4) : Vec4 :=
  ⟨a.get (b.e0 % 4).toNat, a.get (b.e1 % 4).toNat,
   a.get (b.e2 % 4).toNat, a.get (b.e3 % 4).toNat⟩

/-- `pass1_add4 = _mm_setr_epi32(1, 1, 3, 3)`. -/
def pass1_add4 : Vec4 := ⟨1, 1, 3, 3⟩

/-- `pass2_add4 = _mm_setr_epi32(2, 3, 2, 3)`. -/
def pass2_add4 : Vec4 := ⟨2, 3, 2, 3⟩

/-- `pass3_add4 = _mm_setr_epi32(0, 2, 2, 3)`. -/
def pass3_add4 : Vec4 := ⟨0, 2, 2, 3⟩

/-- Round 1 of `simdsort4`: the synthesized permute-index vector `b`. -/
def simdsort4b1 (a : Vec4) : Vec4 :=
  mm_add_epi32 (mm_cmpgt_epi32 (mm_shuffle_epi32 a 177) a) pass1_add4

/-- Round 1 of `simdsort4`: the permuted register. -/
def simdsort4s1 (a : Vec4) : Vec4 := mm_permutevar_ps a (simdsort4b1 a)

/-- Round 2 of `simdsort4`: the synthesized permute-index vector `b`. -/
def simdsort4b2 (a : Vec4) : Vec4 :=
  mm_add_epi32 (mm_slli_epi32 (mm_cmpgt_epi32 (mm_shuffle_epi32 a 78) a) 1) pass2_add4

/-- Round 2 of `simdsort4`: the permuted register. -/
def simdsort4s2 (a : Vec4) : Vec4 := mm_permutevar_ps a (simdsort4b2 a)

/-- Round 3 of `simdsort4`: the synthesized permute-index vector `b`. -/
def simdsort4b3 (a : Vec4) : Vec4 :=
  mm_add_epi32 (mm_cmpgt_epi32 (mm_shuffle_epi32 a 216) a) pass3_add4

/-- Round 3 of `simdsort4`: the permuted register. -/
def simdsort4s3 (a : Vec4) : Vec4 := mm_permutevar_ps a (simdsort4b3 a)

/-- `simdsort4` of sorts.cpp: three compare-and-permute rounds, in place. -/
def simdsort4 (v : Vec4) : Vec4 := simdsort4s3 (simdsort4s2 (simdsort4s1 v))

/-- The compare-and-swap pairs realized by the three rounds of `simdsort4`:
rounds {(0,1),(2,3)}, {(0,2),(1,3)}, {(1,2)}. -/
def net4 : List (Fin 4 × Fin 4) := [(0, 1), (2, 3), (0, 2), (1, 3), (1, 2)]

/-! ## The vectorized 6-element network `simdsort6` (sorts.cpp, lines 218-259)

A 128-bit register of sixteen signed 8-bit lanes is the structure `Vec16`.
`simdsort6` loads six bytes (through a 4-byte access at offset 0 and a 4-byte
access at offset 4 whose upper two bytes are discarded by
`_mm_insert_epi16`), runs five compare-and-shuffle rounds, and stores the six
result bytes through a 4-byte access and a 2-byte access. -/

/-- Two's-complement wrap of an integer to the signed 8-bit range. -/
def wrap8 (z : Int) : Int := (z + 128) % 256 - 128

/-- The unsigned-byte value (0..255) of an integer. -/
def toU8 (z : Int) : Int := z % 256

/-- Byte-wise AND of two signed bytes. -/
def land8 (x y : Int) : Int :=
  wrap8 ((((toU8 x).toNat &&& (toU8 y).toNat : Nat) : Int))

/-- The signed 32-bit integer formed by four little-endian bytes, as read by a
4-byte memory access. -/
def pack32 (b0 b1 b2 b3 : Int) : Int :=
  wrap32 (toU8 b0 + 256 * toU8 b1 + 65536 * toU8 b2 + 16777216 * toU8 b3)

/-- Byte `i` (little-endian) of the 32-bit pattern of an integer, as a signed
byte. -/
def byteAt (x : Int) (i : Nat) : Int :=
  wrap8 (x % 4294967296 / 2 ^ (8 * i))

/-- A 128-bit register of sixteen signed 8-bit lanes (lane 0 is the lowest). -/
structure Vec16 where
  e0 : Int
  e1 : Int
  e2 : Int
  e3 : Int
  e4 : Int
  e5 : Int
  e6 : Int
  e7 : Int
  e8 : Int
  e9 : Int
  e10 : Int
  e11 : Int
  e12 : Int
  e13 : Int
  e14 : Int
  e15 : Int

/-- Lane selection by a four-bit index, as used by `_mm_shuffle_epi8`
(callers pass 0..15). -/
def Vec16.get (a : Vec16) (i : Nat) : Int :=
  match i with
  | 0 => a.e0
  | 1 => a.e1
  | 2 => a.e2
  | 3 => a.e3
  | 4 => a.e4
  | 5 => a.e5
  | 6 => a.e6
  | 7 => a.e7
  | 8 => a.e8
  | 9 => a.e9
  | 10 => a.e10
  | 11 => a.e11
  | 12 => a.e12
  | 13 => a.e13
  | 14 => a.e14
  | _ => a.e15

/-- `_mm_cmpgt_epi8(b, a)` lane-wise. -/
def mm_cmpgt_epi8 (b a : Vec16) : Vec16 :=
  ⟨cmpgtMask b.e0 a.e0, cmpgtMask b.e1 a.e1, cmpgtMask b.e2 a.e2,
   cmpgtMask b.e3 a.e3, cmpgtMask b.e4 a.e4, cmpgtMask b.e5 a.e5,
   cmpgtMask b.e6 a.e6, cmpgtMask b.e7 a.e7, cmpgtMask b.e8 a.e8,
   cmpgtMask b.e9 a.e9, cmpgtMask b.e10 a.e10, cmpgtMask b.e11 a.e11,
   cmpgtMask b.e12 a.e12, cmpgtMask b.e13 a.e13, cmpgtMask b.e14 a.e14,
   cmpgtMask b.e15 a.e15⟩

/-- `_mm_add_epi8` lane-wise, wrapping at 8 bits. -/
def mm_add_epi8 (a b : Vec16) : Vec16 :=
  ⟨wrap8 (a.e0 + b.e0), wrap8 (a.e1 + b.e1), wrap8 (a.e2 + b.e2),
   wrap8 (a.e3 + b.e3), wrap8 (a.e4 + b.e4), wrap8 (a.e5 + b.e5),
   wrap8 (a.e6 + b.e6), wrap8 (a.e7 + b.e7), wrap8 (a.e8 + b.e8),
   wrap8 (a.e9 + b.e9), wrap8 (a.e10 + b.e10), wrap8 (a.e11 + b.e11),
   wrap8 (a.e12 + b.e12), wrap8 (a.e13 + b.e13), wrap8 (a.e14 + b.e14),
   wrap8 (a.e15 + b.e15)⟩

/-- `_mm_and_si128` byte-wise. -/
def mm_and_si128 (a b : Vec16) : Vec16 :=
  ⟨land8 a.e0 b.e0, land8 a.e1 b.e1, land8 a.e2 b.e2, land8 a.e3 b.e3,
   land8 a.e4 b.e4, land8 a.e5 b.e5, land8 a.e6 b.e6, land8 a.e7 b.e7,
   land8 a.e8 b.e8, land8 a.e9 b.e9, land8 a.e10 b.e10, land8 a.e11 b.e11,
   land8 a.e12 b.e12, land8 a.e13 b.e13, land8 a.e14 b.e14, land8 a.e15 b.e15⟩

/-- `_mm_shuffle_epi8(a, m)`: lane `k` is zeroed when byte `k` of `m` is
negative, else receives the lane of `a` selected by its low four bits. -/
def mm_shuffle_epi8 (a m : Vec16) : Vec16 :=
  ⟨if m.e0 < 0 then 0 else a.get (m.e0.toNat % 16),
   if m.e1 < 0 then 0 else a.get (m.e1.toNat % 16),
   if m.e2 < 0 then 0 else a.get (m.e2.toNat % 16),
   if m.e3 < 0 then 0 else a.get (m.e3.toNat % 16),
   if m.e4 < 0 then 0 else a.get (m.e4.toNat % 16),
   if m.e5 < 0 then 0 else a.get (m.e5.toNat % 16),
   if m.e6 < 0 then 0 else a.get (m.e6.toNat % 16),
   if m.e7 < 0 then 0 else a.get (m.e7.toNat % 16),
   if m.e8 < 0 then 0 else a.get (m.e8.toNat % 16),
   if m.e9 < 0 then 0 else a.get (m.e9.toNat % 16),
   if m.e10 < 0 then 0 else a.get (m.e10.toNat % 16),
   if m.e11 < 0 then 0 else a.get (m.e11.toNat % 16),
   if m.e12 < 0 then 0 else a.get (m.e12.toNat % 16),
   if m.e13 < 0 then 0 else a.get (m.e13.toNat % 16),
   if m.e14 < 0 then 0 else a.get (m.e14.toNat % 16),
   if m.e15 < 0 then 0 else a.get (m.e15.toNat % 16)⟩

/-- `_mm_cvtsi32_si128(x)`: the four bytes of `x` in the low lanes, zeroes
above. -/
def mm_cvtsi32_si128 (x : Int) : Vec16 :=
  ⟨byteAt x 0, byteAt x 1, byteAt x 2, byteAt x 3,
   0, 0, 0, 0, 0, 0, 0, 0, 0, 0, 0, 0⟩

/-- `_mm_insert_epi16(a, x, 2)`: the low 16 bits of `x` replace bytes 4 and 5. -/
def mm_insert_epi16_2 (a : Vec16) (x : Int) : Vec16 :=
  { a with e4 := byteAt x 0, e5 := byteAt x 1 }

/-- `_mm_cvtsi128_si32(a)`: the signed 32-bit value of the low four bytes. -/
def mm_cvtsi128_si32 (a : Vec16) : Int := pack32 a.e0 a.e1 a.e2 a.e3

/-- `_mm_extract_epi16(a, 2)`: bytes 4 and 5 as a zero-extended 16-bit value. -/
def mm_extract_epi16_2 (a : Vec16) : Int := toU8 a.e4 + 256 * toU8 a.e5

/-- `pass1_shf = _mm_setr_epi8(1,0,3,2,5,4,6,7,8,9,10,11,12,13,14,15)`. -/
def pass1_shf : Vec16 := ⟨1, 0, 3, 2, 5, 4, 6, 7, 8, 9, 10, 11, 12, 13, 14, 15⟩

/-- `pass1_add = _mm_setr_epi8(1,1,3,3,5,5,6,7,8,9,10,11,12,13,14,15)`. -/
def pass1_add : Vec16 := ⟨1, 1, 3, 3, 5, 5, 6, 7, 8, 9, 10, 11, 12, 13, 14, 15⟩

/-- `pass2_shf = _mm_setr_epi8(2,4,0,5,1,3,6,7,8,9,10,11,12,13,14,15)`. -/
def pass2_shf : Vec16 := ⟨2, 4, 0, 5, 1, 3, 6, 7, 8, 9, 10, 11, 12, 13, 14, 15⟩

/-- `pass2_and = _mm_setr_epi8(-2,-3,-2,-2,-3,-2,0,0,0,0,0,0,0,0,0,0)`. -/
def pass2_and : Vec16 := ⟨-2, -3, -2, -2, -3, -2, 0, 0, 0, 0, 0, 0, 0, 0, 0, 0⟩

/-- `pass2_add = _mm_setr_epi8(2,4,2,5,4,5,6,7,8,9,10,11,12,13,14,15)`. -/
def pass2_add : Vec16 := ⟨2, 4, 2, 5, 4, 5, 6, 7, 8, 9, 10, 11, 12, 13, 14, 15⟩

/-- `pass4_shf = _mm_setr_epi8(0,2,1,4,3,5,6,7,8,9,10,11,12,13,14,15)`. -/
def pass4_shf : Vec16 := ⟨0, 2, 1, 4, 3, 5, 6, 7, 8, 9, 10, 11, 12, 13, 14, 15⟩

/-- `pass4_add = _mm_setr_epi8(0,2,2,4,4,5,6,7,8,9,10,11,12,13,14,15)`. -/
def pass4_add : Vec16 := ⟨0, 2, 2, 4, 4, 5, 6, 7, 8, 9, 10, 11, 12, 13, 14, 15⟩

/-- `pass5_shf = _mm_setr_epi8(0,1,3,2,4,5,6,7,8,9,10,11,12,13,14,15)`. -/
def pass5_shf : Vec16 := ⟨0, 1, 3, 2, 4, 5, 6, 7, 8, 9, 10, 11, 12, 13, 14, 15⟩

/-- `pass5_add = _mm_setr_epi8(0,1,3,3,4,5,6,7,8,9,10,11,12,13,14,15)`. -/
def pass5_add : Vec16 := ⟨0, 1, 3, 3, 4, 5, 6, 7, 8, 9, 10, 11, 12, 13, 14, 15⟩

/-- The load sequence of `simdsort6` (sorts.cpp lines 228-229): a 4-byte read
at offset 0 and a 4-byte read at offset 4, of which only the low 16 bits are
inserted. -/
def simdsort6load (v0 v1 v2 v3 v4 v5 v6 v7 : Int) : Vec16 :=
  mm_insert_epi16_2 (mm_cvtsi32_si128 (pack32 v0 v1 v2 v3)) (pack32 v4 v5 v6 v7)

/-- Round 1 (also reused as round 3) of `simdsort6`: the synthesized
shuffle-index vector `b`. -/
def simdsort6b1 (a : Vec16) : Vec16 :=
  mm_add_epi8 (mm_cmpgt_epi8 (mm_shuffle_epi8 a pass1_shf) a) pass1_add

/-- Round 1 (also reused as round 3) of `simdsort6`: the shuffled register. -/
def simdsort6p1 (a : Vec16) : Vec16 := mm_shuffle_epi8 a (simdsort6b1 a)

/-- Round 2 of `simdsort6`: the synthesized shuffle-index vector `b`. -/
def simdsort6b2 (a : Vec16) : Vec16 :=
  mm_add_epi8 (mm_and_si128 (mm_cmpgt_epi8 (mm_shuffle_epi8 a pass2_shf) a) pass2_and) pass2_add

/-- Round 2 of `simdsort6`: the shuffled register. -/
def simdsort6p2 (a : Vec16) : Vec16 := mm_shuffle_epi8 a (simdsort6b2 a)

/-- Round 4 of `simdsort6`: the synthesized shuffle-index vector `b`. -/
def simdsort6b4 (a : Vec16) : Vec16 :=
  mm_add_epi8 (mm_cmpgt_epi8 (mm_shuffle_epi8 a pass4_shf) a) pass4_add

/-- Round 4 of `simdsort6`: the shuffled register. -/
def simdsort6p4 (a : Vec16) : Vec16 := mm_shuffle_epi8 a (simdsort6b4 a)

/-- Round 5 of `simdsort6`: the synthesized shuffle-index vector `b`. -/
def simdsort6b5 (a : Vec16) : Vec16 :=
  mm_add_epi8 (mm_cmpgt_epi8 (mm_shuffle_epi8 a pass5_shf) a) pass5_add

/-- Round 5 of `simdsort6`: the shuffled register. -/
def simdsort6p5 (a : Vec16) : Vec16 := mm_shuffle_epi8 a (simdsort6b5 a)

/-- The register at the end of `simdsort6`, before the store: load, then the
rounds 1, 2, 3 (round 3 repeats round 1), 4, 5. -/
def simdsort6reg (v0 v1 v2 v3 v4 v5 v6 v7 : Int) : Vec16 :=
  simdsort6p5 (simdsort6p4 (simdsort6p1 (simdsort6p2 (simdsort6p1
    (simdsort6load v0 v1 v2 v3 v4 v5 v6 v7)))))

/-- The store sequence of `simdsort6` (sorts.cpp lines 257-258): a 4-byte
store of `_mm_cvtsi128_si32` at offset 0 and a 2-byte store of
`_mm_extract_epi16(..., 2)` at offset 4; the six stored bytes. -/
def simdsort6store (r : Vec16) : List Int :=
  [byteAt (mm_cvtsi128_si32 r) 0, byteAt (mm_cvtsi128_si32 r) 1,
   byteAt (mm_cvtsi128_si32 r) 2, byteAt (mm_cvtsi128_si32 r) 3,
   wrap8 (mm_extract_epi16_2 r), wrap8 (mm_extract_epi16_2 r / 256)]

/-- The six bytes of the buffer after `simdsort6`, as a function of the eight
bytes that the function reads. -/
def simdsort6out (v0 v1 v2 v3 v4 v5 v6 v7 : Int) : List Int :=
  simdsort6store (simdsort6reg v0 v1 v2 v3 v4 v5 v6 v7)

/-- A six-value tuple. -/
def vec6 (a0 a1 a2 a3 a4 a5 : Int) : Fin 6 → Int := fun i =>
  match i with
  | ⟨0, _⟩ => a0
  | ⟨1, _⟩ => a1
  | ⟨2, _⟩ => a2
  | ⟨3, _⟩ => a3
  | ⟨4, _⟩ => a4
  | ⟨5, _⟩ => a5

/-- A register holding a six-value tuple in its low lanes and zeroes above. -/
def reg6 (x : Fin 6 → Int) : Vec16 :=
  ⟨x 0, x 1, x 2, x 3, x 4, x 5, 0, 0, 0, 0, 0, 0, 0, 0, 0, 0⟩

/-- The compare-and-swap pairs realized by the five rounds of `simdsort6`:
rounds {(0,1),(2,3),(4,5)}, {(0,2),(1,4),(3,5)}, {(0,1),(2,3),(4,5)},
{(1,2),(3,4)}, {(2,3)}. -/
def simdNet6 : List (Fin 6 × Fin 6) :=
  [(0, 1), (2, 3), (4, 5), (0, 2), (1, 4), (3, 5),
   (0, 1), (2, 3), (4, 5), (1, 2), (3, 4), (2, 3)]

/-! ## Exact (non-wrapping) index synthesis for `simdsort4`

These definitions follow the spec's words in its boundary-value property: the
comparison and index-synthesis arithmetic of `simdsort4` is claimed never to
overflow the 32-bit element width, i.e. to coincide with exact integer
arithmetic.  They are compared against the wrapping definitions above. -/

/-- Exact lane-wise addition (no 32-bit wrap), for comparison with
`mm_add_epi32`. -/
def addExact4 (a b : Vec4) : Vec4 :=
  ⟨a.e0 + b.e0, a.e1 + b.e1, a.e2 + b.e2, a.e3 + b.e3⟩

/-- Exact lane-wise shift (no 32-bit wrap), for comparison with
`mm_slli_epi32`. -/
def slliExact4 (a : Vec4) (n : Nat) : Vec4 :=
  ⟨a.e0 * 2 ^ n, a.e1 * 2 ^ n, a.e2 * 2 ^ n, a.e3 * 2 ^ n⟩

/-- Round 1 index synthesis of `simdsort4` with exact arithmetic. -/
def simdsort4b1exact (a : Vec4) : Vec4 :=
  addExact4 (mm_cmpgt_epi32 (mm_shuffle_epi32 a 177) a) pass1_add4

/-- Round 2 index synthesis of `simdsort4` with exact arithmetic. -/
def simdsort4b2exact (a : Vec4) : Vec4 :=
  addExact4 (slliExact4 (mm_cmpgt_epi32 (mm_shuffle_epi32 a 78) a) 1) pass2_add4

/-- Round 3 index synthesis of `simdsort4` with exact arithmetic. -/
def simdsort4b3exact (a : Vec4) : Vec4 :=
  addExact4 (mm_cmpgt_epi32 (mm_shuffle_epi32 a 216) a) pass3_add4

/-! ## The memory accesses of `simdsort6`

sorts.cpp line 228 reads a 4-byte `int` at offset 0; line 229 reads a 4-byte
`int` at offset 4 (only the low 16 bits of which are inserted); line 257
stores a 4-byte `int` at offset 0; line 258 stores a 2-byte `int16_t` at
offset 4.  Each access is recorded as (offset, width in bytes). -/

/-- The memory reads of `simdsort6`: 4 bytes at offset 0, 4 bytes at offset 4. -/
def simdsort6ReadAccesses : List (Nat × Nat) := [(0, 4), (4, 4)]

/-- The memory writes of `simdsort6`: 4 bytes at offset 0, 2 bytes at offset 4. -/
def simdsort6WriteAccesses : List (Nat × Nat) := [(0, 4), (4, 2)]

/-- All byte offsets covered by a list of (offset, width) accesses. -/
def bytesTouched (accs : List (Nat × Nat)) : List Nat :=
  (accs.map (fun a => (List.range a.2).map (fun k => a.1 + k))).flatten

/-! ## The modelled scalar 4-element network

`main.cpp` declares `sort4a` as an external assembly routine whose body is not
among the sources. -/

/-- Modelled from the spec: `sort4a`, the scalar 4-element network, exists in
the repository only as an assembly file that is not among the sources; the
spec (section 4.3) gives scalar reference networks "the same sorting contract",
a straight-line compare-and-swap sequence producing ascending order, and
section 4.1 names the classical depth-3 size-5 network for n = 4.  It is
modelled as that compare-and-swap network. -/
def sort4a (x : Fin 4 → Int) : Fin 4 → Int := runNet net4 x

/-! ## The correctness harness of `main` (main.cpp, lines 29-42)

The loop sorts each permutation `p` with the network under test `f`, compares
it element-wise against the sorted reference `ref`, prints one "NOPE!" line
per mismatching element, accumulates the flag `all_good`, and after all
permutations prints "All good!" exactly when the flag still holds.  The
permutation generator is the spec's external collaborator, so the harness is
parametric in the list of permutations it produces. -/

/-- The inner comparison loop of the harness, for one sorted permutation `q`:
`for (i = 0; i < q.size; ++i) if (q[i] != ref[i]) { print "NOPE!"; all_good =
false; }` over the state (all_good, output lines). -/
def innerLoop (ref q : List Int) (st : Bool × List String) : Bool × List String :=
  (List.range q.length).foldl
    (fun s i => if q.getD i 0 ≠ ref.getD i 0 then (false, s.2 ++ ["NOPE!"]) else s) st

/-- The whole correctness loop: every permutation is sorted by `f` and checked
by the inner loop; the state starts as (true, no output). -/
def checkRun (f : List Int → List Int) (ref : List Int)
    (perms : List (List Int)) : Bool × List String :=
  perms.foldl (fun st p => innerLoop ref (f p) st) (true, [])

/-- The lines printed by the harness: the mismatch log, then "All good!"
exactly when the flag survived. -/
def correctnessOutput (f : List Int → List Int) (ref : List Int)
    (perms : List (List Int)) : List String :=
  (checkRun f ref perms).2 ++ (if (checkRun f ref perms).1 then ["All good!"] else [])

/-- Whether a sorted permutation `q` matches the reference element-wise. -/
def matchesRef (ref q : List Int) : Bool :=
  (List.range q.length).all (fun i => q.getD i 0 == ref.getD i 0)

/-- One "NOPE!" line per mismatching element of `q`. -/
def nopeLines (ref q : List Int) : List String :=
  ((List.range q.length).filter (fun i => q.getD i 0 != ref.getD i 0)).map
    (fun _ => "NOPE!")

/-- The number of mismatching elements of `q` against the reference. -/
def mismatchCount (ref q : List Int) : Nat :=
  ((List.range q.length).filter (fun i => q.getD i 0 != ref.getD i 0)).length

/-! ## The timing harness of `main` (main.cpp, lines 44-56) -/

/-- `constexpr int runs = 1000000000`. -/
def runs : Nat := 1000000000

/-- The pattern `x[0]=1; x[1]=2; x[2]=3; x[3]=4` written before every
invocation. -/
def timingInit : List Int := [1, 2, 3, 4]

/-- One iteration of the timing loop: the buffer is overwritten with the fixed
pattern, then the network under test runs on it; the incoming buffer state is
irrelevant. -/
def timingIter (f : List Int → List Int) (x : List Int) : List Int := f timingInit

/-- The reported figure: total elapsed nanoseconds divided by the iteration
count. -/
def reportNs (elapsed : Rat) : Rat := elapsed / (runs : Rat)

/-! ## The reference-vector initializer of `main` (main.cpp, lines 26-27) -/

/-- `INT_MAX` for the 32-bit `int` of the targeted toolchain. -/
def INT_MAX : Int := 2147483647

/-- `RAND_MAX` of the targeted (Win64/MSVC) toolchain, 0x7fff. -/
def RAND_MAX : Int := 32767

/-- One entry `rand()*(INT_MAX/RAND_MAX*2)` of the initializer at line 26,
with the multiplication wrapping at 32 bits as the machine does. -/
def refInitEntry (r : Int) : Int := wrap32 (r * (INT_MAX / RAND_MAX * 2))

/-- The initializer list of line 26: four such products, one per `rand()`
call. -/
def refInitList (r1 r2 r3 r4 : Int) : List Int :=
  [refInitEntry r1, refInitEntry r2, refInitEntry r3, refInitEntry r4]

/-- Line 27 immediately overwrites the vector: `ref = { 1, 2, 3, 4 }`. -/
def refOverwritten : List Int := [1, 2, 3, 4]

theorem runNet_nil {n : Nat} (v : Fin n → Int) : runNet [] v = v := rfl

theorem runNet_cons {n : Nat} (p : Fin n × Fin n) (net : List (Fin n × Fin n))
    (v : Fin n → Int) : runNet (p :: net) v = runNet net (casF p.1 p.2 v) := rfl

/-- A compare-and-swap step commutes with any monotone reinterpretation of the
values. -/
theorem casF_comp {n : Nat} {f : Int → Int} (hf : Monotone f) (i j : Fin n)
    (v : Fin n → Int) : casF i j (f ∘ v) = f ∘ casF i j v := by
  funext k
  simp only [casF, Function.comp_apply]
  split_ifs with h1 h2
  · exact (hf.map_min).symm
  · exact (hf.map_max).symm
  · rfl

/-- A whole network commutes with any monotone reinterpretation of the
values. -/
theorem runNet_comp {n : Nat} {f : Int → Int} (hf : Monotone f)
    (net : List (Fin n × Fin n)) (v : Fin n → Int) :
    runNet net (f ∘ v) = f ∘ runNet net v := by
  induction net generalizing v with
  | nil => rfl
  | cons p net ih =>
      rw [runNet_cons, runNet_cons, casF_comp hf, ih]

/-- A compare-and-swap step permutes the values of the tuple. -/
theorem casF_perm {n : Nat} (i j : Fin n) (v : Fin n → Int) :
    (List.ofFn (casF i j v)).Perm (List.ofFn v) := by
  rcases le_total (v i) (v j) with h | h
  · have : casF i j v = v := by
      funext k
      rcases eq_or_ne k i with rfl | hki
      · simp [casF, min_eq_left h]
      · rcases eq_or_ne k j with rfl | hkj
        · simp [casF, hki, max_eq_right h]
        · simp [casF, hki, hkj]
    rw [this]
  · have : casF i j v = v ∘ (Equiv.swap i j) := by
      funext k
      rcases eq_or_ne k i with rfl | hki
      · simp [casF, Equiv.swap_apply_left, min_eq_right h]
      · rcases eq_or_ne k j with rfl | hkj
        · simp [casF, hki, Equiv.swap_apply_right, max_eq_left h]
        · simp [casF, hki, hkj, Equiv.swap_apply_of_ne_of_ne hki hkj]
    rw [this]
    exact Equiv.Perm.ofFn_comp_perm (Equiv.swap i j) v

/-- Running a network permutes the values of the tuple. -/
theorem runNet_perm {n : Nat} (net : List (Fin n × Fin n)) (v : Fin n → Int) :
    (List.ofFn (runNet net v)).Perm (List.ofFn v) := by
  induction net generalizing v with
  | nil => exact List.Perm.refl _
  | cons p net ih =>
      rw [runNet_cons]
      exact (ih (casF p.1 p.2 v)).trans (casF_perm p.1 p.2 v)

/-- The 0-1 principle: if a network sorts every tuple of zeroes and ones, it
sorts every tuple of integers. -/
theorem runNet_monotone {n : Nat} (net : List (Fin (n + 1) × Fin (n + 1)))
    (h01 : ∀ b : Fin (n + 1) → Bool, ∀ k : Fin n,
      runNet net (fun m => if b m then (1 : Int) else 0) k.castSucc ≤
        runNet net (fun m => if b m then (1 : Int) else 0) k.succ)
    (v : Fin (n + 1) → Int) : Monotone (runNet net v) := by
  by_contra hmon
  rw [Fin.monotone_iff_le_succ] at hmon
  push_neg at hmon
  obtain ⟨k, hk⟩ := hmon
  have hk' : runNet net v k.succ < runNet net v k.castSucc := hk
  set w : Fin (n + 1) → Int := runNet net v with hw
  set f : Int → Int := fun x => if w k.succ < x then 1 else 0 with hfdef
  have hfm : Monotone f := by
    intro a b hab
    simp only [hfdef]
    split_ifs <;> omega
  have hcomm : runNet net (f ∘ v) = f ∘ w := runNet_comp hfm net v
  have h2 := h01 (fun m => decide (w k.succ < v m)) k
  have he : (fun m => if decide (w k.succ < v m) then (1 : Int) else 0) = f ∘ v := by
    funext m
    simp [hfdef, Function.comp_apply]
  rw [he, hcomm] at h2
  simp only [Function.comp_apply, hfdef] at h2
  rw [if_pos hk', if_neg (lt_irrefl _)] at h2
  omega

/-- Values of a network output tuple all occur among the input values. -/
theorem runNet_mem {n : Nat} (net : List (Fin n × Fin n)) (v : Fin n → Int)
    (i : Fin n) : ∃ j : Fin n, runNet net v i = v j := by
  have hmem : runNet net v i ∈ List.ofFn (runNet net v) := by
    rw [List.mem_ofFn]
    exact ⟨i, rfl⟩
  have h2 := (runNet_perm net v).mem_iff.1 hmem
  rw [List.mem_ofFn] at h2
  obtain ⟨j, hj⟩ := h2
  exact ⟨j, hj.symm⟩

/-- Expansion of a six-element tuple into a list. -/
theorem ofFn_six (f : Fin 6 → Int) :
    List.ofFn f = [f 0, f 1, f 2, f 3, f 4, f 5] := rfl

/-- Expansion of a four-element tuple into a list. -/
theorem ofFn_four (f : Fin 4 → Int) :
    List.ofFn f = [f 0, f 1, f 2, f 3] := rfl

/-- Sortedness of the output list of a network, from the 0-1 principle. -/
theorem runNet_sorted {n : Nat} (net : List (Fin (n + 1) × Fin (n + 1)))
    (h01 : ∀ b : Fin (n + 1) → Bool, ∀ k : Fin n,
      runNet net (fun m => if b m then (1 : Int) else 0) k.castSucc ≤
        runNet net (fun m => if b m then (1 : Int) else 0) k.succ)
    (v : Fin (n + 1) → Int) : (List.ofFn (runNet net v)).Sorted (· ≤ ·) :=
  List.sorted_le_ofFn_iff.mpr (runNet_monotone net h01 v)

theorem buf6_swap_1_2 (a0 a1 a2 a3 a4 a5 : Int) :
    (Buf6.mk a0 (kmin a1 a2) (kmax a1 a2) a3 a4 a5).toFun
      = casF 1 2 (Buf6.mk a0 a1 a2 a3 a4 a5).toFun := by
  funext k
  fin_cases k <;> simp [Buf6.toFun, casF, kmin, kmax, Fin.ext_iff] <;> omega

theorem buf6_swap_0_2 (a0 a1 a2 a3 a4 a5 : Int) :
    (Buf6.mk (kmin a0 a2) a1 (kmax a0 a2) a3 a4 a5).toFun
      = casF 0 2 (Buf6.mk a0 a1 a2 a3 a4 a5).toFun := by
  funext k
  fin_cases k <;> simp [Buf6.toFun, casF, kmin, kmax, Fin.ext_iff] <;> omega

theorem buf6_swap_0_1 (a0 a1 a2 a3 a4 a5 : Int) :
    (Buf6.mk (kmin a0 a1) (kmax a0 a1) a2 a3 a4 a5).toFun
      = casF 0 1 (Buf6.mk a0 a1 a2 a3 a4 a5).toFun := by
  funext k
  fin_cases k <;> simp [Buf6.toFun, casF, kmin, kmax, Fin.ext_iff] <;> omega

theorem buf6_swap_4_5 (a0 a1 a2 a3 a4 a5 : Int) :
    (Buf6.mk a0 a1 a2 a3 (kmin a4 a5) (kmax a4 a5)).toFun
      = casF 4 5 (Buf6.mk a0 a1 a2 a3 a4 a5).toFun := by
  funext k
  fin_cases k <;> simp [Buf6.toFun, casF, kmin, kmax, Fin.ext_iff] <;> omega

theorem buf6_swap_3_5 (a0 a1 a2 a3 a4 a5 : Int) :
    (Buf6.mk a0 a1 a2 (kmin a3 a5) a4 (kmax a3 a5)).toFun
      = casF 3 5 (Buf6.mk a0 a1 a2 a3 a4 a5).toFun := by
  funext k
  fin_cases k <;> simp [Buf6.toFun, casF, kmin, kmax, Fin.ext_iff] <;> omega

theorem buf6_swap_3_4 (a0 a1 a2 a3 a4 a5 : Int) :
    (Buf6.mk a0 a1 a2 (kmin a3 a4) (kmax a3 a4) a5).toFun
      = casF 3 4 (Buf6.mk a0 a1 a2 a3 a4 a5).toFun := by
  funext k
  fin_cases k <;> simp [Buf6.toFun, casF, kmin, kmax, Fin.ext_iff] <;> omega

theorem buf6_swap_0_3 (a0 a1 a2 a3 a4 a5 : Int) :
    (Buf6.mk (kmin a0 a3) a1 a2 (kmax a0 a3) a4 a5).toFun
      = casF 0 3 (Buf6.mk a0 a1 a2 a3 a4 a5).toFun := by
  funext k
  fin_cases k <;> simp [Buf6.toFun, casF, kmin, kmax, Fin.ext_iff] <;> omega

theorem buf6_swap_1_4 (a0 a1 a2 a3 a4 a5 : Int) :
    (Buf6.mk a0 (kmin a1 a4) a2 a3 (kmax a1 a4) a5).toFun
      = casF 1 4 (Buf6.mk a0 a1 a2 a3 a4 a5).toFun := by
  funext k
  fin_cases k <;> simp [Buf6.toFun, casF, kmin, kmax, Fin.ext_iff] <;> omega

theorem buf6_swap_2_5 (a0 a1 a2 a3 a4 a5 : Int) :
    (Buf6.mk a0 a1 (kmin a2 a5) a3 a4 (kmax a2 a5)).toFun
      = casF 2 5 (Buf6.mk a0 a1 a2 a3 a4 a5).toFun := by
  funext k
  fin_cases k <;> simp [Buf6.toFun, casF, kmin, kmax, Fin.ext_iff] <;> omega

theorem buf6_swap_2_4 (a0 a1 a2 a3 a4 a5 : Int) :
    (Buf6.mk a0 a1 (kmin a2 a4) a3 (kmax a2 a4) a5).toFun
      = casF 2 4 (Buf6.mk a0 a1 a2 a3 a4 a5).toFun := by
  funext k
  fin_cases k <;> simp [Buf6.toFun, casF, kmin, kmax, Fin.ext_iff] <;> omega

theorem buf6_swap_1_3 (a0 a1 a2 a3 a4 a5 : Int) :
    (Buf6.mk a0 (kmin a1 a3) a2 (kmax a1 a3) a4 a5).toFun
      = casF 1 3 (Buf6.mk a0 a1 a2 a3 a4 a5).toFun := by
  funext k
  fin_cases k <;> simp [Buf6.toFun, casF, kmin, kmax, Fin.ext_iff] <;> omega

theorem buf6_swap_2_3 (a0 a1 a2 a3 a4 a5 : Int) :
    (Buf6.mk a0 a1 (kmin a2 a3) (kmax a2 a3) a4 a5).toFun
      = casF 2 3 (Buf6.mk a0 a1 a2 a3 a4 a5).toFun := by
  funext k
  fin_cases k <;> simp [Buf6.toFun, casF, kmin, kmax, Fin.ext_iff] <;> omega

/-- `sort6` is exactly the compare-and-swap network `sort6Net`. -/
theorem sort6_eq_runNet (v : Buf6) :
    (sort6 v).toFun = runNet sort6Net v.toFun := by
  show (sort6 v).toFun = casF 2 3 (casF 1 3 (casF 2 4 (casF 2 5 (casF 1 4
    (casF 0 3 (casF 3 4 (casF 3 5 (casF 4 5 (casF 0 1 (casF 0 2
      (casF 1 2 v.toFun)))))))))))
  simp only [sort6]
  rw [buf6_swap_2_3, buf6_swap_1_3, buf6_swap_2_4, buf6_swap_2_5, buf6_swap_1_4,
    buf6_swap_0_3, buf6_swap_3_4, buf6_swap_3_5, buf6_swap_4_5, buf6_swap_0_1,
    buf6_swap_0_2, buf6_swap_1_2]

/-- The network `sort6Net` sorts every 0-1 input (checked exhaustively). -/
theorem sort6Net01 : ∀ b : Fin 6 → Bool, ∀ k : Fin 5,
    runNet sort6Net (fun m => if b m then (1 : Int) else 0) k.castSucc ≤
      runNet sort6Net (fun m => if b m then (1 : Int) else 0) k.succ := by
  decide

/-- The immediate 177 selects lanes (1, 0, 3, 2). -/
theorem shuffle177 (a : Vec4) : mm_shuffle_epi32 a 177 = ⟨a.e1, a.e0, a.e3, a.e2⟩ := rfl

/-- The immediate 78 selects lanes (2, 3, 0, 1). -/
theorem shuffle78 (a : Vec4) : mm_shuffle_epi32 a 78 = ⟨a.e2, a.e3, a.e0, a.e1⟩ := rfl

/-- The immediate 216 selects lanes (0, 2, 1, 3). -/
theorem shuffle216 (a : Vec4) : mm_shuffle_epi32 a 216 = ⟨a.e0, a.e2, a.e1, a.e3⟩ := rfl

/-- Explicit value of the round-1 index vector of `simdsort4`. -/
theorem simdsort4b1_eval (a : Vec4) : simdsort4b1 a =
    ⟨if a.e0 < a.e1 then 0 else 1, if a.e1 < a.e0 then 0 else 1,
     if a.e2 < a.e3 then 2 else 3, if a.e3 < a.e2 then 2 else 3⟩ := by
  simp only [simdsort4b1, shuffle177, mm_add_epi32, mm_cmpgt_epi32, pass1_add4,
    cmpgtMask, wrap32, Vec4.mk.injEq]
  split_ifs <;> omega

/-- Explicit value of the round-2 index vector of `simdsort4`. -/
theorem simdsort4b2_eval (a : Vec4) : simdsort4b2 a =
    ⟨if a.e0 < a.e2 then 0 else 2, if a.e1 < a.e3 then 1 else 3,
     if a.e2 < a.e0 then 0 else 2, if a.e3 < a.e1 then 1 else 3⟩ := by
  simp only [simdsort4b2, shuffle78, mm_add_epi32, mm_slli_epi32,
    mm_cmpgt_epi32, pass2_add4, cmpgtMask, wrap32, Vec4.mk.injEq]
  split_ifs <;> omega

/-- Explicit value of the round-3 index vector of `simdsort4`. -/
theorem simdsort4b3_eval (a : Vec4) : simdsort4b3 a =
    ⟨0, if a.e1 < a.e2 then 1 else 2, if a.e2 < a.e1 then 1 else 2, 3⟩ := by
  simp only [simdsort4b3, shuffle216, mm_add_epi32, mm_cmpgt_epi32, pass3_add4,
    cmpgtMask, wrap32, Vec4.mk.injEq]
  split_ifs <;> omega

theorem simdsort4s1_eq (a : Vec4) :
    (simdsort4s1 a).toFun = casF 2 3 (casF 0 1 a.toFun) := by
  rw [simdsort4s1, simdsort4b1_eval]
  funext k
  fin_cases k <;>
    simp [mm_permutevar_ps, casF, Vec4.toFun, Vec4.get] <;>
    split_ifs <;>
    simp [Vec4.get] <;>
    omega

theorem simdsort4s2_eq (a : Vec4) :
    (simdsort4s2 a).toFun = casF 1 3 (casF 0 2 a.toFun) := by
  rw [simdsort4s2, simdsort4b2_eval]
  funext k
  fin_cases k <;>
    simp [mm_permutevar_ps, casF, Vec4.toFun, Vec4.get] <;>
    split_ifs <;>
    simp [Vec4.get] <;>
    omega

theorem simdsort4s3_eq (a : Vec4) :
    (simdsort4s3 a).toFun = casF 1 2 a.toFun := by
  rw [simdsort4s3, simdsort4b3_eval]
  funext k
  fin_cases k <;>
    simp [mm_permutevar_ps, casF, Vec4.toFun, Vec4.get] <;>
    split_ifs <;>
    simp [Vec4.get] <;>
    omega

/-- `simdsort4` is exactly the compare-and-swap network `net4`. -/
theorem simdsort4_eq_runNet (v : Vec4) :
    (simdsort4 v).toFun = runNet net4 v.toFun := by
  show _ = casF 1 2 (casF 1 3 (casF 0 2 (casF 2 3 (casF 0 1 v.toFun))))
  rw [simdsort4, simdsort4s3_eq, simdsort4s2_eq, simdsort4s1_eq]

/-- The network `net4` sorts every 0-1 input (checked exhaustively). -/
theorem net401 : ∀ b : Fin 4 → Bool, ∀ k : Fin 3,
    runNet net4 (fun m => if b m then (1 : Int) else 0) k.castSucc ≤
      runNet net4 (fun m => if b m then (1 : Int) else 0) k.succ := by
  decide

/-- The network `simdNet6` sorts every 0-1 input (checked exhaustively). -/
theorem simdNet601 : ∀ b : Fin 6 → Bool, ∀ k : Fin 5,
    runNet simdNet6 (fun m => if b m then (1 : Int) else 0) k.castSucc ≤
      runNet simdNet6 (fun m => if b m then (1 : Int) else 0) k.succ := by
  decide

/-- With in-range bytes, the load sequence places the six buffer bytes in the
low lanes and zeroes above; the over-read bytes `v6`, `v7` are discarded. -/
theorem simdsort6load_eq (v0 v1 v2 v3 v4 v5 v6 v7 : Int)
    (h0 : -128 ≤ v0 ∧ v0 < 128) (h1 : -128 ≤ v1 ∧ v1 < 128)
    (h2 : -128 ≤ v2 ∧ v2 < 128) (h3 : -128 ≤ v3 ∧ v3 < 128)
    (h4 : -128 ≤ v4 ∧ v4 < 128) (h5 : -128 ≤ v5 ∧ v5 < 128) :
    simdsort6load v0 v1 v2 v3 v4 v5 v6 v7 = reg6 (vec6 v0 v1 v2 v3 v4 v5) := by
  simp only [simdsort6load, mm_insert_epi16_2, mm_cvtsi32_si128, pack32,
    byteAt, toU8, wrap8, wrap32, reg6, vec6, Vec16.mk.injEq]
  norm_num
  omega

/-- The shuffle by `pass1_shf` gathers each byte's round-1 partner. -/
theorem shuffleP1 (a : Vec16) : mm_shuffle_epi8 a pass1_shf =
    ⟨a.e1, a.e0, a.e3, a.e2, a.e5, a.e4, a.e6, a.e7,
     a.e8, a.e9, a.e10, a.e11, a.e12, a.e13, a.e14, a.e15⟩ := rfl

/-- The shuffle by `pass2_shf` gathers each byte's round-2 partner. -/
theorem shuffleP2 (a : Vec16) : mm_shuffle_epi8 a pass2_shf =
    ⟨a.e2, a.e4, a.e0, a.e5, a.e1, a.e3, a.e6, a.e7,
     a.e8, a.e9, a.e10, a.e11, a.e12, a.e13, a.e14, a.e15⟩ := rfl

/-- The shuffle by `pass4_shf` gathers each byte's round-4 partner. -/
theorem shuffleP4 (a : Vec16) : mm_shuffle_epi8 a pass4_shf =
    ⟨a.e0, a.e2, a.e1, a.e4, a.e3, a.e5, a.e6, a.e7,
     a.e8, a.e9, a.e10, a.e11, a.e12, a.e13, a.e14, a.e15⟩ := rfl

/-- The shuffle by `pass5_shf` gathers each byte's round-5 partner. -/
theorem shuffleP5 (a : Vec16) : mm_shuffle_epi8 a pass5_shf =
    ⟨a.e0, a.e1, a.e3, a.e2, a.e4, a.e5, a.e6, a.e7,
     a.e8, a.e9, a.e10, a.e11, a.e12, a.e13, a.e14, a.e15⟩ := rfl

/-- Explicit value of the round-1 (and round-3) index vector of `simdsort6`. -/
theorem simdsort6b1_eval (a : Vec16) : simdsort6b1 a =
    ⟨if a.e0 < a.e1 then 0 else 1, if a.e1 < a.e0 then 0 else 1,
     if a.e2 < a.e3 then 2 else 3, if a.e3 < a.e2 then 2 else 3,
     if a.e4 < a.e5 then 4 else 5, if a.e5 < a.e4 then 4 else 5,
     6, 7, 8, 9, 10, 11, 12, 13, 14, 15⟩ := by
  simp [simdsort6b1, shuffleP1, mm_add_epi8, mm_cmpgt_epi8, pass1_add,
    cmpgtMask, wrap8, Vec16.mk.injEq]
  split_ifs <;> omega

/-- Explicit value of the round-2 index vector of `simdsort6`. -/
theorem simdsort6b2_eval (a : Vec16) : simdsort6b2 a =
    ⟨if a.e0 < a.e2 then 0 else 2, if a.e1 < a.e4 then 1 else 4,
     if a.e2 < a.e0 then 0 else 2, if a.e3 < a.e5 then 3 else 5,
     if a.e4 < a.e1 then 1 else 4, if a.e5 < a.e3 then 3 else 5,
     6, 7, 8, 9, 10, 11, 12, 13, 14, 15⟩ := by
  simp [simdsort6b2, shuffleP2, mm_add_epi8, mm_and_si128, mm_cmpgt_epi8,
    pass2_and, pass2_add, cmpgtMask, Vec16.mk.injEq]
  split_ifs <;> simp only [land8, toU8, wrap8] <;> decide

/-- Explicit value of the round-4 index vector of `simdsort6`. -/
theorem simdsort6b4_eval (a : Vec16) : simdsort6b4 a =
    ⟨0, if a.e1 < a.e2 then 1 else 2, if a.e2 < a.e1 then 1 else 2,
     if a.e3 < a.e4 then 3 else 4, if a.e4 < a.e3 then 3 else 4, 5,
     6, 7, 8, 9, 10, 11, 12, 13, 14, 15⟩ := by
  simp [simdsort6b4, shuffleP4, mm_add_epi8, mm_cmpgt_epi8, pass4_add,
    cmpgtMask, wrap8, Vec16.mk.injEq]
  split_ifs <;> omega

/-- Explicit value of the round-5 index vector of `simdsort6`. -/
theorem simdsort6b5_eval (a : Vec16) : simdsort6b5 a =
    ⟨0, 1, if a.e2 < a.e3 then 2 else 3, if a.e3 < a.e2 then 2 else 3, 4, 5,
     6, 7, 8, 9, 10, 11, 12, 13, 14, 15⟩ := by
  simp [simdsort6b5, shuffleP5, mm_add_epi8, mm_cmpgt_epi8, pass5_add,
    cmpgtMask, wrap8, Vec16.mk.injEq]
  split_ifs <;> omega

/-- A shuffle lane whose index is a two-way choice of nonnegative values picks
the corresponding register lane. -/
theorem shuffleLane (R : Vec16) (c : Prop) [Decidable c] (m n : Int)
    (hm : 0 ≤ m) (hn : 0 ≤ n) :
    (if (if c then m else n) < 0 then 0 else R.get ((if c then m else n).toNat % 16))
      = if c then R.get (m.toNat % 16) else R.get (n.toNat % 16) := by
  by_cases hc : c
  · simp only [if_pos hc, if_neg (not_lt.mpr hm)]
  · simp only [if_neg hc, if_neg (not_lt.mpr hn)]

/-- Round 1 (and round 3) on a six-value register realizes the
compare-and-swaps (0,1), (2,3), (4,5). -/
theorem simdsort6p1_eq (x : Fin 6 → Int) :
    simdsort6p1 (reg6 x) = reg6 (casF 4 5 (casF 2 3 (casF 0 1 x))) := by
  rw [simdsort6p1, simdsort6b1_eval]
  simp [mm_shuffle_epi8, reg6, casF, Vec16.mk.injEq, shuffleLane]
  simp [Vec16.get]
  split_ifs <;> omega

/-- Round 2 on a six-value register realizes the compare-and-swaps
(0,2), (1,4), (3,5). -/
theorem simdsort6p2_eq (x : Fin 6 → Int) :
    simdsort6p2 (reg6 x) = reg6 (casF 3 5 (casF 1 4 (casF 0 2 x))) := by
  rw [simdsort6p2, simdsort6b2_eval]
  simp [mm_shuffle_epi8, reg6, casF, Vec16.mk.injEq, shuffleLane]
  simp [Vec16.get]
  split_ifs <;> omega

/-- Round 4 on a six-value register realizes the compare-and-swaps
(1,2), (3,4). -/
theorem simdsort6p4_eq (x : Fin 6 → Int) :
    simdsort6p4 (reg6 x) = reg6 (casF 3 4 (casF 1 2 x)) := by
  rw [simdsort6p4, simdsort6b4_eval]
  simp [mm_shuffle_epi8, reg6, casF, Vec16.mk.injEq, shuffleLane]
  simp [Vec16.get]
  split_ifs <;> omega

/-- Round 5 on a six-value register realizes the compare-and-swap (2,3). -/
theorem simdsort6p5_eq (x : Fin 6 → Int) :
    simdsort6p5 (reg6 x) = reg6 (casF 2 3 x) := by
  rw [simdsort6p5, simdsort6b5_eval]
  simp [mm_shuffle_epi8, reg6, casF, Vec16.mk.injEq, shuffleLane]
  simp [Vec16.get]
  split_ifs <;> omega

/-- The whole register pipeline of `simdsort6` is the network `simdNet6`. -/
theorem simdsort6reg_eq (v0 v1 v2 v3 v4 v5 v6 v7 : Int)
    (h0 : -128 ≤ v0 ∧ v0 < 128) (h1 : -128 ≤ v1 ∧ v1 < 128)
    (h2 : -128 ≤ v2 ∧ v2 < 128) (h3 : -128 ≤ v3 ∧ v3 < 128)
    (h4 : -128 ≤ v4 ∧ v4 < 128) (h5 : -128 ≤ v5 ∧ v5 < 128) :
    simdsort6reg v0 v1 v2 v3 v4 v5 v6 v7
      = reg6 (runNet simdNet6 (vec6 v0 v1 v2 v3 v4 v5)) := by
  rw [simdsort6reg, simdsort6load_eq v0 v1 v2 v3 v4 v5 v6 v7 h0 h1 h2 h3 h4 h5,
    simdsort6p1_eq, simdsort6p2_eq, simdsort6p1_eq, simdsort6p4_eq, simdsort6p5_eq]
  rfl

/-- All output values of a network stay within the input range. -/
theorem runNet_range {n : Nat} (net : List (Fin n × Fin n)) (v : Fin n → Int)
    (lo hi : Int) (h : ∀ i, lo ≤ v i ∧ v i < hi) (i : Fin n) :
    lo ≤ runNet net v i ∧ runNet net v i < hi := by
  obtain ⟨j, hj⟩ := runNet_mem net v i
  rw [hj]
  exact h j

/-- With in-range lane values, the store sequence writes back exactly the six
low lanes. -/
theorem simdsort6store_eq (y : Fin 6 → Int)
    (h : ∀ i : Fin 6, -128 ≤ y i ∧ y i < 128) :
    simdsort6store (reg6 y) = List.ofFn y := by
  have h0 := h 0
  have h1 := h 1
  have h2 := h 2
  have h3 := h 3
  have h4 := h 4
  have h5 := h 5
  rw [ofFn_six]
  simp only [simdsort6store, reg6, mm_cvtsi128_si32, mm_extract_epi16_2,
    pack32, byteAt, toU8, wrap8, wrap32, List.cons.injEq, and_true]
  norm_num
  omega

/-- With in-range input bytes, `simdsort6` writes back exactly the network
`simdNet6` applied to the six input bytes. -/
theorem simdsort6out_eq (v0 v1 v2 v3 v4 v5 v6 v7 : Int)
    (h0 : -128 ≤ v0 ∧ v0 < 128) (h1 : -128 ≤ v1 ∧ v1 < 128)
    (h2 : -128 ≤ v2 ∧ v2 < 128) (h3 : -128 ≤ v3 ∧ v3 < 128)
    (h4 : -128 ≤ v4 ∧ v4 < 128) (h5 : -128 ≤ v5 ∧ v5 < 128) :
    simdsort6out v0 v1 v2 v3 v4 v5 v6 v7
      = List.ofFn (runNet simdNet6 (vec6 v0 v1 v2 v3 v4 v5)) := by
  rw [simdsort6out, simdsort6reg_eq v0 v1 v2 v3 v4 v5 v6 v7 h0 h1 h2 h3 h4 h5,
    simdsort6store_eq]
  apply runNet_range
  intro i
  fin_cases i <;> simpa [vec6] using by assumption

theorem simdsort4b1_noWrap (a : Vec4) : simdsort4b1 a = simdsort4b1exact a := by
  simp only [simdsort4b1, simdsort4b1exact, shuffle177, mm_add_epi32, addExact4,
    mm_cmpgt_epi32, pass1_add4, cmpgtMask, wrap32, Vec4.mk.injEq]
  split_ifs <;> omega

theorem simdsort4b2_noWrap (a : Vec4) : simdsort4b2 a = simdsort4b2exact a := by
  simp only [simdsort4b2, simdsort4b2exact, shuffle78, mm_add_epi32, addExact4,
    mm_slli_epi32, slliExact4, mm_cmpgt_epi32, pass2_add4, cmpgtMask, wrap32,
    Vec4.mk.injEq]
  norm_num
  split_ifs <;> omega

theorem simdsort4b3_noWrap (a : Vec4) : simdsort4b3 a = simdsort4b3exact a := by
  simp only [simdsort4b3, simdsort4b3exact, shuffle216, mm_add_epi32, addExact4,
    mm_cmpgt_epi32, pass3_add4, cmpgtMask, wrap32, Vec4.mk.injEq]
  split_ifs <;> omega

/-- Byte 0 of the 32-bit pattern of four packed bytes is the first byte. -/
theorem byteAt_pack32_zero (a b c d : Int) : byteAt (pack32 a b c d) 0 = wrap8 a := by
  simp only [byteAt, pack32, toU8, wrap8, wrap32]
  norm_num
  omega

/-- Byte 1 of the 32-bit pattern of four packed bytes is the second byte. -/
theorem byteAt_pack32_one (a b c d : Int) : byteAt (pack32 a b c d) 1 = wrap8 b := by
  simp only [byteAt, pack32, toU8, wrap8, wrap32]
  norm_num
  omega

/-- The two over-read bytes never reach the register. -/
theorem simdsort6load_highBytes (v0 v1 v2 v3 v4 v5 v6 v7 w6 w7 : Int) :
    simdsort6load v0 v1 v2 v3 v4 v5 v6 v7 = simdsort6load v0 v1 v2 v3 v4 v5 w6 w7 := by
  simp only [simdsort6load, mm_insert_epi16_2, byteAt_pack32_zero, byteAt_pack32_one]

/-- The two over-read bytes never affect the stored result. -/
theorem simdsort6out_highBytes (v0 v1 v2 v3 v4 v5 v6 v7 w6 w7 : Int) :
    simdsort6out v0 v1 v2 v3 v4 v5 v6 v7 = simdsort6out v0 v1 v2 v3 v4 v5 w6 w7 := by
  unfold simdsort6out simdsort6reg
  rw [simdsort6load_highBytes v0 v1 v2 v3 v4 v5 v6 v7 w6 w7]

theorem innerLoopAux (ref q : List Int) (st : Bool × List String) (n : Nat) :
    (List.range n).foldl
      (fun s i => if q.getD i 0 ≠ ref.getD i 0 then (false, s.2 ++ ["NOPE!"]) else s) st
    = (st.1 && (List.range n).all (fun i => q.getD i 0 == ref.getD i 0),
       st.2 ++ ((List.range n).filter (fun i => q.getD i 0 != ref.getD i 0)).map
         (fun _ => "NOPE!")) := by
  induction n with
  | zero => simp
  | succ n ih =>
      rw [List.range_succ, List.foldl_append, ih]
      by_cases h : q[n]?.getD 0 = ref[n]?.getD 0 <;>
        simp [h, Bool.and_assoc]

/-- The inner loop conjoins the flag with the element-wise check and appends
one "NOPE!" line per mismatch. -/
theorem innerLoop_eq (ref q : List Int) (st : Bool × List String) :
    innerLoop ref q st = (st.1 && matchesRef ref q, st.2 ++ nopeLines ref q) :=
  innerLoopAux ref q st q.length

/-- The whole loop conjoins the checks of all permutations and concatenates
all their mismatch lines: no permutation is skipped. -/
theorem checkRun_eq (f : List Int → List Int) (ref : List Int)
    (perms : List (List Int)) :
    checkRun f ref perms
      = (perms.all (fun p => matchesRef ref (f p)),
         (perms.map (fun p => nopeLines ref (f p))).flatten) := by
  have aux : ∀ (ps : List (List Int)) (st : Bool × List String),
      ps.foldl (fun st p => innerLoop ref (f p) st) st
        = (st.1 && ps.all (fun p => matchesRef ref (f p)),
           st.2 ++ (ps.map (fun p => nopeLines ref (f p))).flatten) := by
    intro ps
    induction ps with
    | nil => intro st; simp
    | cons p ps ih =>
        intro st
        rw [List.foldl_cons, innerLoop_eq, ih]
        simp [Bool.and_assoc]
  rw [checkRun, aux]
  simp

/-- The element-wise check holds exactly when every position matches. -/
theorem matchesRef_iff (ref q : List Int) :
    matchesRef ref q = true ↔ ∀ i < q.length, q.getD i 0 = ref.getD i 0 := by
  simp [matchesRef]

/-- The flag of the correctness loop holds exactly when every element of every
sorted permutation matches the reference. -/
theorem checkRun_flag_iff (f : List Int → List Int) (ref : List Int)
    (perms : List (List Int)) :
    (checkRun f ref perms).1 = true
      ↔ ∀ p ∈ perms, ∀ i < (f p).length, (f p).getD i 0 = ref.getD i 0 := by
  rw [checkRun_eq]
  simp [matchesRef_iff]

/-- Every line of the mismatch log is "NOPE!". -/
theorem nopeOnly (f : List Int → List Int) (ref : List Int)
    (perms : List (List Int)) : ∀ s ∈ (checkRun f ref perms).2, s = "NOPE!" := by
  rw [checkRun_eq]
  intro s hs
  simp only [List.mem_flatten, List.mem_map] at hs
  obtain ⟨l, ⟨p, hp, rfl⟩, hsl⟩ := hs
  simp only [nopeLines, List.mem_map] at hsl
  obtain ⟨i, hi, rfl⟩ := hsl
  rfl

/-- "All good!" appears in the harness output exactly when the flag holds. -/
theorem allgood_iff (f : List Int → List Int) (ref : List Int)
    (perms : List (List Int)) :
    "All good!" ∈ correctnessOutput f ref perms ↔ (checkRun f ref perms).1 = true := by
  unfold correctnessOutput
  constructor
  · intro hmem
    rcases List.mem_append.1 hmem with hin | hin
    · exact absurd (nopeOnly f ref perms _ hin) (by decide)
    · by_cases hfl : (checkRun f ref perms).1 = true
      · exact hfl
      · simp only [Bool.not_eq_true] at hfl
        simp [hfl] at hin
  · intro hfl
    rw [if_pos hfl]
    exact List.mem_append.2 (Or.inr (by simp))

/-! ## The claims -/

/-- C1: for every buffer of exactly 4 signed 32-bit integers, `simdsort4`
rearranges the buffer in place into non-descending order containing the same
multiset of values; in particular, on each of the 24 orderings of 4 distinct
values the output is the ascending sort of those values. -/
theorem claim_C1 (v : Vec4)
    (h0 : -2147483648 ≤ v.e0 ∧ v.e0 < 2147483648)
    (h1 : -2147483648 ≤ v.e1 ∧ v.e1 < 2147483648)
    (h2 : -2147483648 ≤ v.e2 ∧ v.e2 < 2147483648)
    (h3 : -2147483648 ≤ v.e3 ∧ v.e3 < 2147483648) :
    (List.ofFn (simdsort4 v).toFun).Sorted (· ≤ ·) ∧
    (List.ofFn (simdsort4 v).toFun).Perm [v.e0, v.e1, v.e2, v.e3] := by
  constructor
  · rw [simdsort4_eq_runNet]
    exact runNet_sorted net4 net401 v.toFun
  · rw [simdsort4_eq_runNet]
    exact runNet_perm net4 v.toFun

/-- Witness for C1 at the concrete buffer (3, 1, 2, 0). -/
theorem claim_C1_witness :
    ((-2147483648 ≤ (3 : Int) ∧ (3 : Int) < 2147483648) ∧
     (-2147483648 ≤ (1 : Int) ∧ (1 : Int) < 2147483648) ∧
     (-2147483648 ≤ (2 : Int) ∧ (2 : Int) < 2147483648) ∧
     (-2147483648 ≤ (0 : Int) ∧ (0 : Int) < 2147483648)) ∧
    ((List.ofFn (simdsort4 ⟨3, 1, 2, 0⟩).toFun).Sorted (· ≤ ·) ∧
     (List.ofFn (simdsort4 ⟨3, 1, 2, 0⟩).toFun).Perm [3, 1, 2, 0]) :=
  ⟨by decide, claim_C1 ⟨3, 1, 2, 0⟩ (by decide) (by decide) (by decide) (by decide)⟩

/-- C2: for every input of 6 signed 8-bit integers in the first 6 bytes
(repeated values included), `simdsort6` leaves those 6 bytes holding the same
multiset of values in non-descending order. -/
theorem claim_C2 (v0 v1 v2 v3 v4 v5 v6 v7 : Int)
    (h0 : -128 ≤ v0 ∧ v0 < 128) (h1 : -128 ≤ v1 ∧ v1 < 128)
    (h2 : -128 ≤ v2 ∧ v2 < 128) (h3 : -128 ≤ v3 ∧ v3 < 128)
    (h4 : -128 ≤ v4 ∧ v4 < 128) (h5 : -128 ≤ v5 ∧ v5 < 128) :
    (simdsort6out v0 v1 v2 v3 v4 v5 v6 v7).Sorted (· ≤ ·) ∧
    (simdsort6out v0 v1 v2 v3 v4 v5 v6 v7).Perm [v0, v1, v2, v3, v4, v5] := by
  rw [simdsort6out_eq v0 v1 v2 v3 v4 v5 v6 v7 h0 h1 h2 h3 h4 h5]
  exact ⟨runNet_sorted simdNet6 simdNet601 _, runNet_perm simdNet6 _⟩

/-- Witness for C2 at the concrete bytes (2, 2, 1, 3, -5, 0), with arbitrary
over-read bytes 101 and -102; the input holds a duplicate. -/
theorem claim_C2_witness :
    ((-128 ≤ (2 : Int) ∧ (2 : Int) < 128) ∧ (-128 ≤ (2 : Int) ∧ (2 : Int) < 128) ∧
     (-128 ≤ (1 : Int) ∧ (1 : Int) < 128) ∧ (-128 ≤ (3 : Int) ∧ (3 : Int) < 128) ∧
     (-128 ≤ (-5 : Int) ∧ (-5 : Int) < 128) ∧ (-128 ≤ (0 : Int) ∧ (0 : Int) < 128)) ∧
    ((simdsort6out 2 2 1 3 (-5) 0 101 (-102)).Sorted (· ≤ ·) ∧
     (simdsort6out 2 2 1 3 (-5) 0 101 (-102)).Perm [2, 2, 1, 3, -5, 0]) :=
  ⟨by decide, claim_C2 2 2 1 3 (-5) 0 101 (-102) (by decide) (by decide) (by decide)
    (by decide) (by decide) (by decide)⟩

/-- C3 counterexample: the load of `simdsort6` covers byte offsets 6 and 7,
outside the 6-byte extent, and the reads are not a 4-byte plus a 2-byte
access; the claim that the network never reads outside the extent is false of
the code. -/
theorem claim_C3_counterexample :
    6 ∈ bytesTouched simdsort6ReadAccesses ∧
    7 ∈ bytesTouched simdsort6ReadAccesses ∧
    simdsort6ReadAccesses ≠ [(0, 4), (4, 2)] := by decide

/-- C3 (amended): the network never writes outside the 6-byte extent and the
stores are a 4-byte plus a 2-byte access; the loads, however, are two 4-byte
accesses covering offsets 0..7, and the two bytes read beyond the extent never
influence the stored result. -/
theorem claim_C3_amended :
    (∀ b ∈ bytesTouched simdsort6WriteAccesses, b < 6) ∧
    simdsort6WriteAccesses = [(0, 4), (4, 2)] ∧
    bytesTouched simdsort6WriteAccesses = [0, 1, 2, 3, 4, 5] ∧
    simdsort6ReadAccesses = [(0, 4), (4, 4)] ∧
    bytesTouched simdsort6ReadAccesses = [0, 1, 2, 3, 4, 5, 6, 7] ∧
    (∀ v0 v1 v2 v3 v4 v5 v6 v7 w6 w7 : Int,
      simdsort6out v0 v1 v2 v3 v4 v5 v6 v7 = simdsort6out v0 v1 v2 v3 v4 v5 w6 w7) :=
  ⟨by decide, rfl, by decide, rfl, by decide, simdsort6out_highBytes⟩

/-- C4: `sort6` performs exactly 12 compare-and-swap operations over the fixed
index-pair sequence (1,2),(0,2),(0,1),(4,5),(3,5),(3,4),(0,3),(1,4),(2,5),
(2,4),(1,3),(2,3), each computing the min and the max of the pair and writing
them back unconditionally, and after all 12 operations the 6-element buffer is
in non-descending order for every input, holding the same multiset. -/
theorem claim_C4 :
    sort6Net = [(1, 2), (0, 2), (0, 1), (4, 5), (3, 5), (3, 4),
                (0, 3), (1, 4), (2, 5), (2, 4), (1, 3), (2, 3)] ∧
    sort6Net.length = 12 ∧
    (∀ a b : Int, kmin a b = min a b ∧ kmax a b = max a b) ∧
    (∀ v : Buf6, (sort6 v).toFun = runNet sort6Net v.toFun) ∧
    (∀ v : Buf6, (List.ofFn (sort6 v).toFun).Sorted (· ≤ ·)) ∧
    (∀ v : Buf6, (List.ofFn (sort6 v).toFun).Perm [v.v0, v.v1, v.v2, v.v3, v.v4, v.v5]) := by
  refine ⟨rfl, rfl, ?_, sort6_eq_runNet, ?_, ?_⟩
  · intro a b
    constructor <;> simp only [kmin, kmax, min_def, max_def] <;> split_ifs <;> omega
  · intro v
    rw [sort6_eq_runNet]
    exact runNet_sorted sort6Net sort6Net01 v.toFun
  · intro v
    rw [sort6_eq_runNet]
    exact runNet_perm sort6Net v.toFun

/-- The buffer of six named values as a tuple. -/
theorem buf6_toFun_mk (v0 v1 v2 v3 v4 v5 : Int) :
    (Buf6.mk v0 v1 v2 v3 v4 v5).toFun = vec6 v0 v1 v2 v3 v4 v5 := by
  funext i
  fin_cases i <;> rfl

/-- C5: for every input of 6 values representable in both element widths, the
vectorized 8-bit network `simdsort6` and the scalar 32-bit reference network
`sort6` produce identical output value sequences; and the vectorized and (the
spec-modelled) scalar 4-element networks agree on every input. -/
theorem claim_C5 (v0 v1 v2 v3 v4 v5 v6 v7 : Int)
    (h0 : -128 ≤ v0 ∧ v0 < 128) (h1 : -128 ≤ v1 ∧ v1 < 128)
    (h2 : -128 ≤ v2 ∧ v2 < 128) (h3 : -128 ≤ v3 ∧ v3 < 128)
    (h4 : -128 ≤ v4 ∧ v4 < 128) (h5 : -128 ≤ v5 ∧ v5 < 128) :
    simdsort6out v0 v1 v2 v3 v4 v5 v6 v7
      = List.ofFn (sort6 ⟨v0, v1, v2, v3, v4, v5⟩).toFun ∧
    (∀ w : Vec4, (simdsort4 w).toFun = sort4a w.toFun) := by
  constructor
  · rw [simdsort6out_eq v0 v1 v2 v3 v4 v5 v6 v7 h0 h1 h2 h3 h4 h5]
    have hA := runNet_perm simdNet6 (vec6 v0 v1 v2 v3 v4 v5)
    have hB : (List.ofFn ((sort6 ⟨v0, v1, v2, v3, v4, v5⟩).toFun)).Perm
        (List.ofFn (vec6 v0 v1 v2 v3 v4 v5)) := by
      rw [sort6_eq_runNet, buf6_toFun_mk]
      exact runNet_perm sort6Net _
    have hs2 : (List.ofFn ((sort6 ⟨v0, v1, v2, v3, v4, v5⟩).toFun)).Sorted (· ≤ ·) := by
      rw [sort6_eq_runNet]
      exact runNet_sorted sort6Net sort6Net01 _
    exact List.eq_of_perm_of_sorted (hA.trans hB.symm)
      (runNet_sorted simdNet6 simdNet601 _) hs2
  · intro w
    rw [simdsort4_eq_runNet]
    rfl

/-- Witness for C5 at the concrete bytes (5, 1, -3, 7, 0, 2) with arbitrary
over-read bytes. -/
theorem claim_C5_witness :
    ((-128 ≤ (5 : Int) ∧ (5 : Int) < 128) ∧ (-128 ≤ (1 : Int) ∧ (1 : Int) < 128) ∧
     (-128 ≤ (-3 : Int) ∧ (-3 : Int) < 128) ∧ (-128 ≤ (7 : Int) ∧ (7 : Int) < 128) ∧
     (-128 ≤ (0 : Int) ∧ (0 : Int) < 128) ∧ (-128 ≤ (2 : Int) ∧ (2 : Int) < 128)) ∧
    (simdsort6out 5 1 (-3) 7 0 2 99 (-7)
        = List.ofFn (sort6 ⟨5, 1, -3, 7, 0, 2⟩).toFun ∧
     (∀ w : Vec4, (simdsort4 w).toFun = sort4a w.toFun)) :=
  ⟨by decide, claim_C5 5 1 (-3) 7 0 2 99 (-7) (by decide) (by decide) (by decide)
    (by decide) (by decide) (by decide)⟩

/-- C6: the correctness harness does not abort early: for every permutation
supplied by the generator it invokes the network, logs one "NOPE!" line per
mismatching element, accumulates one aggregate flag over all permutations, and
prints "All good!" exactly when no element of any sorted permutation differed
from the reference. -/
theorem claim_C6 (f : List Int → List Int) (ref : List Int)
    (perms : List (List Int)) :
    ((checkRun f ref perms).1 = true
        ↔ ∀ p ∈ perms, ∀ i < (f p).length, (f p).getD i 0 = ref.getD i 0) ∧
    (checkRun f ref perms).2 = (perms.map (fun p => nopeLines ref (f p))).flatten ∧
    (checkRun f ref perms).2.length
        = (perms.map (fun p => mismatchCount ref (f p))).sum ∧
    correctnessOutput f ref perms
        = (checkRun f ref perms).2
            ++ (if (checkRun f ref perms).1 then ["All good!"] else []) ∧
    ("All good!" ∈ correctnessOutput f ref perms
        ↔ ∀ p ∈ perms, ∀ i < (f p).length, (f p).getD i 0 = ref.getD i 0) := by
  refine ⟨checkRun_flag_iff f ref perms, ?_, ?_, rfl,
    (allgood_iff f ref perms).trans (checkRun_flag_iff f ref perms)⟩
  · rw [checkRun_eq]
  · rw [checkRun_eq]
    simp only [nopeLines, mismatchCount, List.length_flatten, List.map_map]
    apply congrArg List.sum
    apply List.map_congr_left
    intro p hp
    simp

/-- C7 counterexample: the pattern the timing loop writes before each
invocation is (1, 2, 3, 4), which is already in strictly ascending order, so
it is not an "unsorted pattern" as the claim states. -/
theorem claim_C7_counterexample :
    timingInit = [1, 2, 3, 4] ∧ List.Sorted (· ≤ ·) timingInit ∧
    List.Sorted (· < ·) timingInit := by
  refine ⟨rfl, ?_, ?_⟩ <;> decide

/-- C7 (amended): each iteration of the timing harness re-initializes the
buffer to the fixed pattern (1, 2, 3, 4) — which is already sorted ascending,
not unsorted — before invoking the network under test, repeats this for the
fixed count 10^9, and reports the total elapsed time divided by the iteration
count as the average per-call cost. -/
theorem claim_C7_amended :
    runs = 10 ^ 9 ∧
    (∀ (f : List Int → List Int) (x : List Int), timingIter f x = f timingInit) ∧
    timingInit = [1, 2, 3, 4] ∧
    (∀ e : Rat, reportNs e = e / (10 ^ 9 : Rat)) := by
  refine ⟨by norm_num [runs], fun f x => rfl, rfl, fun e => ?_⟩
  norm_num [reportNs, runs]

/-- C8: for every 4-element input containing both extrema of the 32-bit signed
range, `simdsort4` orders the input correctly, and none of the comparison or
index-synthesis arithmetic wraps: each round's index vector coincides with the
one computed by exact integer arithmetic. -/
theorem claim_C8 (v : Vec4)
    (h0 : -2147483648 ≤ v.e0 ∧ v.e0 < 2147483648)
    (h1 : -2147483648 ≤ v.e1 ∧ v.e1 < 2147483648)
    (h2 : -2147483648 ≤ v.e2 ∧ v.e2 < 2147483648)
    (h3 : -2147483648 ≤ v.e3 ∧ v.e3 < 2147483648)
    (hmin : v.e0 = -2147483648 ∨ v.e1 = -2147483648 ∨ v.e2 = -2147483648 ∨
      v.e3 = -2147483648)
    (hmax : v.e0 = 2147483647 ∨ v.e1 = 2147483647 ∨ v.e2 = 2147483647 ∨
      v.e3 = 2147483647) :
    (List.ofFn (simdsort4 v).toFun).Sorted (· ≤ ·) ∧
    (List.ofFn (simdsort4 v).toFun).Perm [v.e0, v.e1, v.e2, v.e3] ∧
    simdsort4b1 v = simdsort4b1exact v ∧
    simdsort4b2 v = simdsort4b2exact v ∧
    simdsort4b3 v = simdsort4b3exact v := by
  refine ⟨?_, ?_, simdsort4b1_noWrap v, simdsort4b2_noWrap v, simdsort4b3_noWrap v⟩
  · rw [simdsort4_eq_runNet]
    exact runNet_sorted net4 net401 v.toFun
  · rw [simdsort4_eq_runNet]
    exact runNet_perm net4 v.toFun

/-- Witness for C8 at the concrete buffer (INT_MAX, INT_MIN, 5, 0). -/
theorem claim_C8_witness :
    ((-2147483648 ≤ (2147483647 : Int) ∧ (2147483647 : Int) < 2147483648) ∧
     (-2147483648 ≤ (-2147483648 : Int) ∧ (-2147483648 : Int) < 2147483648) ∧
     (-2147483648 ≤ (5 : Int) ∧ (5 : Int) < 2147483648) ∧
     (-2147483648 ≤ (0 : Int) ∧ (0 : Int) < 2147483648) ∧
     ((2147483647 : Int) = -2147483648 ∨ (-2147483648 : Int) = -2147483648 ∨
       (5 : Int) = -2147483648 ∨ (0 : Int) = -2147483648) ∧
     ((2147483647 : Int) = 2147483647 ∨ (-2147483648 : Int) = 2147483647 ∨
       (5 : Int) = 2147483647 ∨ (0 : Int) = 2147483647)) ∧
    ((List.ofFn (simdsort4 ⟨2147483647, -2147483648, 5, 0⟩).toFun).Sorted (· ≤ ·) ∧
     (List.ofFn (simdsort4 ⟨2147483647, -2147483648, 5, 0⟩).toFun).Perm
        [2147483647, -2147483648, 5, 0] ∧
     simdsort4b1 ⟨2147483647, -2147483648, 5, 0⟩
        = simdsort4b1exact ⟨2147483647, -2147483648, 5, 0⟩ ∧
     simdsort4b2 ⟨2147483647, -2147483648, 5, 0⟩
        = simdsort4b2exact ⟨2147483647, -2147483648, 5, 0⟩ ∧
     simdsort4b3 ⟨2147483647, -2147483648, 5, 0⟩
        = simdsort4b3exact ⟨2147483647, -2147483648, 5, 0⟩) :=
  ⟨⟨by decide, by decide, by decide, by decide, by decide, by decide⟩,
    claim_C8 ⟨2147483647, -2147483648, 5, 0⟩ (by decide) (by decide) (by decide)
      (by decide) (by decide) (by decide)⟩

/-- C9: in every round of `simdsort4`, every synthesized 32-bit permute index
lies in 0..3; in every round of `simdsort6` (round 3 repeats round 1's
computation), every synthesized shuffle-index byte of the 6 active lanes lies
in 0..5 — in particular it is never negative, so the byte-wise permute never
zeroes an active lane. -/
theorem claim_C9 :
    (∀ (a : Vec4) (i : Fin 4),
      (0 ≤ (simdsort4b1 a).toFun i ∧ (simdsort4b1 a).toFun i ≤ 3) ∧
      (0 ≤ (simdsort4b2 a).toFun i ∧ (simdsort4b2 a).toFun i ≤ 3) ∧
      (0 ≤ (simdsort4b3 a).toFun i ∧ (simdsort4b3 a).toFun i ≤ 3)) ∧
    (∀ (a : Vec16) (i : Fin 6),
      (0 ≤ (simdsort6b1 a).get i.val ∧ (simdsort6b1 a).get i.val ≤ 5) ∧
      (0 ≤ (simdsort6b2 a).get i.val ∧ (simdsort6b2 a).get i.val ≤ 5) ∧
      (0 ≤ (simdsort6b4 a).get i.val ∧ (simdsort6b4 a).get i.val ≤ 5) ∧
      (0 ≤ (simdsort6b5 a).get i.val ∧ (simdsort6b5 a).get i.val ≤ 5)) := by
  constructor
  · intro a i
    rw [simdsort4b1_eval, simdsort4b2_eval, simdsort4b3_eval]
    fin_cases i <;> (simp [Vec4.toFun]; (try split_ifs) <;> omega)
  · intro a i
    rw [simdsort6b1_eval, simdsort6b2_eval, simdsort6b4_eval, simdsort6b5_eval]
    fin_cases i <;> (simp [Vec16.get]; (try split_ifs) <;> omega)

/-- C10: the initializer of the reference vector evaluates
`rand()*(INT_MAX/RAND_MAX*2)` four times before line 27 overwrites the vector
with (1, 2, 3, 4); for every value of `rand()` above `RAND_MAX/2` the exact
product exceeds `INT_MAX`, so the wrapped 32-bit result differs from the exact
integer product, even though the products are immediately discarded. -/
theorem claim_C10 (r : Int) (h1 : RAND_MAX / 2 < r) (h2 : r ≤ RAND_MAX) :
    INT_MAX < r * (INT_MAX / RAND_MAX * 2) ∧
    refInitEntry r ≠ r * (INT_MAX / RAND_MAX * 2) ∧
    refInitList r r r r
      = [refInitEntry r, refInitEntry r, refInitEntry r, refInitEntry r] ∧
    (refInitList r r r r).length = 4 ∧
    refOverwritten = [1, 2, 3, 4] := by
  simp only [INT_MAX, RAND_MAX] at h1 h2 ⊢
  refine ⟨?_, ?_, rfl, rfl, rfl⟩
  · norm_num
    omega
  · simp only [refInitEntry, wrap32, INT_MAX, RAND_MAX]
    norm_num
    omega

/-- Witness for C10 at the concrete value rand() = 20000. -/
theorem claim_C10_witness :
    (RAND_MAX / 2 < (20000 : Int) ∧ (20000 : Int) ≤ RAND_MAX) ∧
    (INT_MAX < 20000 * (INT_MAX / RAND_MAX * 2) ∧
     refInitEntry 20000 ≠ 20000 * (INT_MAX / RAND_MAX * 2) ∧
     refInitList 20000 20000 20000 20000
        = [refInitEntry 20000, refInitEntry 20000, refInitEntry 20000,
           refInitEntry 20000] ∧
     (refInitList 20000 20000 20000 20000).length = 4 ∧
     refOverwritten = [1, 2, 3, 4]) :=
  ⟨by decide, claim_C10 20000 (by decide) (by decide)⟩

end SortingNetworks

